import Mathlib

/-!
Shallow embedding of `src/container/c/title_interceptor.c` (the catnip
terminal-title interceptor) and verification of its specification claims.

A process buffer is modelled as a total function `Nat → Nat` from byte
offsets to byte values (0..255); `count` is the number of bytes the
underlying `write` accepted.  All machine arithmetic that matters is made
explicit: the C scan loop bound `count - 4` is computed in `size_t`
arithmetic, i.e. modulo 2^64.
-/

namespace TitleInterceptor

/-- Interpretation of a memory byte as a C `char` (signed, 8-bit) — the
validation loop in `scan_for_title_sequences` compares `char` values. -/
def signedChar (v : Nat) : Int :=
  if v < 128 then (v : Int) else (v : Int) - 256

/-- A byte fails the validation test of lines 95–99 of the C source:
`(title[j] < 32 || title[j] > 126)` and `title[j] != ' '`. -/
def charBad (c : Int) : Prop := (c < 32 ∨ 126 < c) ∧ c ≠ 32

instance (c : Int) : Decidable (charBad c) := by
  unfold charBad; infer_instance

/-- A retained payload byte passes the printable-ASCII validation. -/
def byteOk (v : Nat) : Prop := ¬ charBad (signedChar v)

instance (v : Nat) : Decidable (byteOk v) := by
  unfold byteOk; infer_instance

/-- The four-byte OSC leading marker test at offset `i`:
`data[i]==0x1b && data[i+1]==']' && (data[i+2]=='0'||data[i+2]=='2') &&
data[i+3]==';'` (lines 57–59). -/
def markerAt (data : Nat → Nat) (i : Nat) : Prop :=
  data i = 27 ∧ data (i+1) = 93 ∧ (data (i+2) = 48 ∨ data (i+2) = 50) ∧
    data (i+3) = 59

instance (data : Nat → Nat) (i : Nat) : Decidable (markerAt data i) := by
  unfold markerAt; infer_instance

/-- The terminator test of the inner `while` loop (lines 66–77): a BEL byte,
or ESC followed by a backslash when a following byte exists. -/
def termAt (data : Nat → Nat) (count j : Nat) : Prop :=
  data j = 7 ∨ (j < count - 1 ∧ data j = 27 ∧ data (j+1) = 92)

instance (data : Nat → Nat) (count j : Nat) : Decidable (termAt data count j) := by
  unfold termAt; infer_instance

/-- Fuel-indexed version of the terminator search: starting at offset `j`,
advance until a terminator is found or `j = count`.  The fuel `count - j`
makes the recursion structural; it is exactly the number of loop steps the
C `while` can take. -/
def findEndGo (data : Nat → Nat) (count : Nat) : Nat → Nat → Nat
  | j, 0 => j
  | j, fuel+1 =>
    if j < count then
      if data j = 7 then j
      else if j < count - 1 ∧ data j = 27 ∧ data (j+1) = 92 then j
      else findEndGo data count (j+1) fuel
    else j

/-- `title_end` after the terminator-search loop, started at `title_start = j`:
the first offset `≥ j` holding a terminator, or `count` if none exists
(lines 63–77). -/
def findEnd (data : Nat → Nat) (count j : Nat) : Nat :=
  findEndGo data count j (count - j)

/-- Processing of one candidate whose leading marker sits at offset `i`
(lines 61–127): find the terminator, require it inside the buffer with a
non-empty payload, truncate the payload to 200 bytes, validate it, and
yield the title handed to the logger — `none` when the candidate is
dropped. -/
def candidateTitle (data : Nat → Nat) (count i : Nat) : Option (List Nat) :=
  if findEnd data count (i+4) < count ∧ i+4 < findEnd data count (i+4) then
    if (∀ b ∈ (List.range (min (findEnd data count (i+4) - (i+4)) 200)).map
          (fun k => data (i+4+k)), byteOk b)
        ∧ 0 < min (findEnd data count (i+4) - (i+4)) 200 then
      some ((List.range (min (findEnd data count (i+4) - (i+4)) 200)).map
          (fun k => data (i+4+k)))
    else none
  else none

/-- The number of iterations of the outer scan loop
`for (size_t i = 0; i < count - 4; i++)`: `count - 4` computed in `size_t`
(unsigned 64-bit) arithmetic, so for `count < 4` the bound wraps around. -/
def scanBound (count : Nat) : Nat := (count + 2^64 - 4) % 2^64

/-- The outer scan loop from offset `i` with the given number of remaining
iterations: at each offset test the marker and, when it matches, process
the candidate; the loop always advances by one offset (lines 56–130). -/
def scanGo (data : Nat → Nat) (count : Nat) : Nat → Nat → List (List Nat)
  | _, 0 => []
  | i, fuel+1 =>
    if markerAt data i then
      match candidateTitle data count i with
      | some t => t :: scanGo data count (i+1) fuel
      | none => scanGo data count (i+1) fuel
    else scanGo data count (i+1) fuel

/-- `scan_for_title_sequences`: the list of validated titles the scan hands
to the audit logger, in order. -/
def scanTitles (data : Nat → Nat) (count : Nat) : List (List Nat) :=
  scanGo data count 0 (scanBound count)

/-- View a concrete byte list as a buffer (offsets past the end read 0). -/
def bufOf (l : List Nat) : Nat → Nat := fun j => l.getD j 0

example : scanTitles (bufOf [27, 93, 48, 59, 104, 101, 108, 108, 111, 7]) 10
    = [[104, 101, 108, 108, 111]] := by decide

/-! ## The interception shim (`write`, lines 134–157) -/

/-- The type of the resolved original output primitive:
`fd`, buffer, requested count, returning the accepted byte count. -/
abbrev OrigWrite := Int → (Nat → Nat) → Nat → Int

/-- One-time symbol resolution (`init_original_write`, lines 24–30): the
`dlsym` outcome is passed in; a `none` outcome makes the process exit —
modelled as `Except.error ()` — otherwise the resolved primitive is stored. -/
def init_original_write (dlsymResult : Option OrigWrite) : Except Unit OrigWrite :=
  match dlsymResult with
  | none => Except.error ()
  | some w => Except.ok w

/-- The environment-toggle test of lines 146–147:
`enabled && strcmp(enabled, "1") == 0`. -/
def toggleOn : Option String → Bool
  | none => false
  | some s => s = "1"

/-- Observable outcome of one intercepted `write` call: the value returned
to the caller, and the validated titles handed to the audit logger. -/
structure ShimResult where
  ret : Int
  titles : List (List Nat)
deriving DecidableEq

/-- The intercepted `write` (lines 134–157): forward to the original
primitive, then — only for stdout/stderr, a positive requested count, a
positive result and the toggle exactly `"1"` — scan the first `result`
bytes.  The environment value is looked up per call. -/
def interceptedWrite (orig : OrigWrite) (env : Option String)
    (fd : Int) (buf : Nat → Nat) (count : Nat) : ShimResult :=
  if (fd = 1 ∨ fd = 2) ∧ 0 < count ∧ 0 < orig fd buf count ∧
      toggleOn env = true then
    { ret := orig fd buf count
      titles := scanTitles buf (orig fd buf count).toNat }
  else
    { ret := orig fd buf count, titles := [] }

/-! ## The audit-record formatter (lines 104–126) -/

/-- Decimal rendering of the process id, as `snprintf`'s `%d` produces it. -/
def natDecimal (n : Nat) : List Nat := (Nat.toDigits 10 n).map Char.toNat

/-- The formatted log line `<timestamp>|<pid>|<cwd>|<title>\n` (line 118);
its length is the value `snprintf` returns. -/
def formatRecord (ts : List Nat) (pid : Nat) (cwd title : List Nat) : List Nat :=
  ts ++ [124] ++ natDecimal pid ++ [124] ++ cwd ++ [124] ++ title ++ [10]

/-- The guarded log append (lines 117–124): the line is written only when
`0 < log_len < 1024`, i.e. when it fits the 1024-byte internal buffer;
otherwise the record is silently dropped (`none`). -/
def logRecord (ts : List Nat) (pid : Nat) (cwd title : List Nat) :
    Option (List Nat) :=
  if 0 < (formatRecord ts pid cwd title).length ∧
      (formatRecord ts pid cwd title).length < 1024 then
    some (formatRecord ts pid cwd title)
  else none

/-! ## Buffer offsets read by the scan

Each `data[...]` access of `scan_for_title_sequences` is recorded, honouring
the short-circuit evaluation of the C conditions, so that the set of offsets
the scanner examines can be reasoned about. -/

/-- Offsets read by the marker test at `i` (lines 57–59), with C
short-circuiting: `data[i+2]` is read once for both comparisons. -/
def markerReads (data : Nat → Nat) (i : Nat) : List Nat :=
  if data i ≠ 27 then [i]
  else if data (i+1) ≠ 93 then [i, i+1]
  else if data (i+2) ≠ 48 ∧ data (i+2) ≠ 50 then [i, i+1, i+2]
  else [i, i+1, i+2, i+3]

/-- Offsets read by the terminator-search loop started at `j` (lines 66–77):
`data[title_end]` for the BEL test, then — when `title_end < count - 1` —
`data[title_end]` again and possibly `data[title_end + 1]`. -/
def findEndReadsGo (data : Nat → Nat) (count : Nat) : Nat → Nat → List Nat
  | _, 0 => []
  | j, fuel+1 =>
    if j < count then
      if data j = 7 then [j]
      else if j < count - 1 then
        if data j = 27 then
          if data (j+1) = 92 then [j, j, j+1]
          else [j, j, j+1] ++ findEndReadsGo data count (j+1) fuel
        else [j, j] ++ findEndReadsGo data count (j+1) fuel
      else [j] ++ findEndReadsGo data count (j+1) fuel
    else []

/-- Offsets read while processing the candidate at `i`: the terminator
search, then — when the sequence is complete and non-empty — the `memcpy`
of the retained payload bytes (line 89). -/
def candidateReads (data : Nat → Nat) (count i : Nat) : List Nat :=
  findEndReadsGo data count (i+4) (count - (i+4)) ++
    (if findEnd data count (i+4) < count ∧ i+4 < findEnd data count (i+4) then
      (List.range (min (findEnd data count (i+4) - (i+4)) 200)).map
        (fun k => i+4+k)
    else [])

/-- Offsets read by the outer scan loop from `i` with the given remaining
iteration count. -/
def scanReadsGo (data : Nat → Nat) (count : Nat) : Nat → Nat → List Nat
  | _, 0 => []
  | i, fuel+1 =>
    markerReads data i ++
      (if markerAt data i then candidateReads data count i else []) ++
      scanReadsGo data count (i+1) fuel

/-- All buffer offsets `scan_for_title_sequences` reads on a buffer of
`count` accepted bytes. -/
def scanReads (data : Nat → Nat) (count : Nat) : List Nat :=
  scanReadsGo data count 0 (scanBound count)

/-! ## The scanner the specification describes

`scanSkipTitles` follows the words of the specification (section 4.3) for
resumption: after a validated payload is yielded "the scan continues
immediately after the consumed terminator".  Marker recognition, terminator
search, truncation and validation are as in the code.  It is compared with
`scanTitles`, which resumes at the next byte offset. -/

/-- Specification scanner: same candidate processing, but after a yielded
candidate the next examined offset is the one following the consumed
terminator (one byte for BEL, two for ESC-backslash). -/
def scanSkipGo (data : Nat → Nat) (count : Nat) : Nat → Nat → List (List Nat)
  | _, 0 => []
  | i, fuel+1 =>
    if i + 4 ≤ count then
      if markerAt data i then
        match candidateTitle data count i with
        | some t =>
          t :: scanSkipGo data count
            (if data (findEnd data count (i+4)) = 7 then findEnd data count (i+4) + 1
              else findEnd data count (i+4) + 2) fuel
        | none => scanSkipGo data count (i+1) fuel
      else scanSkipGo data count (i+1) fuel
    else []

/-- Titles yielded by the specification's scanner. -/
def scanSkipTitles (data : Nat → Nat) (count : Nat) : List (List Nat) :=
  scanSkipGo data count 0 count

/-! ## Properties of the terminator search -/

theorem findEndGo_term (data : Nat → Nat) (count : Nat) :
    ∀ fuel j, count ≤ j + fuel →
      findEndGo data count j fuel < count →
      termAt data count (findEndGo data count j fuel) := by
  intro fuel
  induction fuel with
  | zero =>
    intro j hle hlt
    simp only [findEndGo] at hlt
    omega
  | succ f ih =>
    intro j hle hlt
    simp only [findEndGo] at hlt ⊢
    by_cases hj : j < count
    · rw [if_pos hj] at hlt ⊢
      by_cases h7 : data j = 7
      · rw [if_pos h7] at hlt ⊢
        exact Or.inl h7
      · rw [if_neg h7] at hlt ⊢
        by_cases hesc : j < count - 1 ∧ data j = 27 ∧ data (j+1) = 92
        · rw [if_pos hesc] at hlt ⊢
          exact Or.inr hesc
        · rw [if_neg hesc] at hlt ⊢
          exact ih (j+1) (by omega) hlt
    · rw [if_neg hj] at hlt
      omega

theorem findEndGo_noterm (data : Nat → Nat) (count : Nat) :
    ∀ fuel j, count = j + fuel →
      (∀ k, j ≤ k → k < count → ¬ termAt data count k) →
      findEndGo data count j fuel = count := by
  intro fuel
  induction fuel with
  | zero =>
    intro j he _
    simp only [findEndGo]
    omega
  | succ f ih =>
    intro j he h
    have hj : j < count := by omega
    simp only [findEndGo]
    rw [if_pos hj]
    have hnt := h j (le_refl j) hj
    by_cases h7 : data j = 7
    · exact absurd (show termAt data count j from Or.inl h7) hnt
    · rw [if_neg h7]
      by_cases hesc : j < count - 1 ∧ data j = 27 ∧ data (j+1) = 92
      · exact absurd (show termAt data count j from Or.inr hesc) hnt
      · rw [if_neg hesc]
        exact ih (j+1) (by omega) (fun k hk1 hk2 => h k (by omega) hk2)

/-- When the terminator search stops inside the buffer, it stops on a
terminator. -/
theorem findEnd_term (data : Nat → Nat) (count j : Nat)
    (h : findEnd data count j < count) :
    termAt data count (findEnd data count j) :=
  findEndGo_term data count (count - j) j (by omega) h

/-- When no terminator exists from `j` to the end of the buffer, the search
runs off the end: `title_end = count`. -/
theorem findEnd_noterm (data : Nat → Nat) (count j : Nat) (hj : j ≤ count)
    (h : ∀ k, j ≤ k → k < count → ¬ termAt data count k) :
    findEnd data count j = count :=
  findEndGo_noterm data count (count - j) j (by omega) h

/-- A search started at or past the end of the buffer stays put. -/
theorem findEnd_of_ge (data : Nat → Nat) (count j : Nat) (hj : count ≤ j) :
    findEnd data count j = j := by
  unfold findEnd
  rw [Nat.sub_eq_zero_of_le hj]
  rfl

/-- A search started on a terminator inside the buffer stops there. -/
theorem findEnd_stop (data : Nat → Nat) (count j : Nat) (hj : j < count)
    (ht : termAt data count j) : findEnd data count j = j := by
  unfold findEnd
  have hfuel : count - j = (count - j - 1) + 1 := by omega
  rw [hfuel]
  simp only [findEndGo]
  rw [if_pos hj]
  by_cases h7 : data j = 7
  · rw [if_pos h7]
  · rw [if_neg h7]
    rcases ht with h | h
    · exact absurd h h7
    · rw [if_pos h]

/-! ## Properties of the outer scan loop -/

/-- Scanning a stretch of offsets holding no leading marker only advances
the loop index: the scan from `a` equals the scan from `a + d`. -/
theorem scanGo_skip (data : Nat → Nat) (count : Nat) :
    ∀ d a fuel, (∀ j, a ≤ j → j < a + d → ¬ markerAt data j) → d ≤ fuel →
      scanGo data count a fuel = scanGo data count (a + d) (fuel - d) := by
  intro d
  induction d with
  | zero =>
    intro a fuel _ _
    simp
  | succ e ih =>
    intro a fuel h hle
    obtain ⟨f, rfl⟩ : ∃ f, fuel = f + 1 := ⟨fuel - 1, by omega⟩
    simp only [scanGo]
    rw [if_neg (h a (le_refl a) (by omega))]
    rw [ih (a+1) f (fun j h1 h2 => h j (by omega) (by omega)) (by omega)]
    rw [show a + 1 + e = a + (e + 1) from by omega]
    rw [show f - e = f + 1 - (e + 1) from by omega]

/-! ## Properties of the read set -/

/-- The marker test always reads the byte at the loop index itself. -/
theorem markerReads_self (data : Nat → Nat) (i : Nat) :
    i ∈ markerReads data i := by
  unfold markerReads
  by_cases h1 : data i ≠ 27
  · rw [if_pos h1]; simp
  · rw [if_neg h1]
    by_cases h2 : data (i+1) ≠ 93
    · rw [if_pos h2]; simp
    · rw [if_neg h2]
      by_cases h3 : data (i+2) ≠ 48 ∧ data (i+2) ≠ 50
      · rw [if_pos h3]; simp
      · rw [if_neg h3]; simp

/-- Every iteration of the scan loop reads the byte at its loop index. -/
theorem scanReadsGo_head (data : Nat → Nat) (count i fuel : Nat)
    (h : 0 < fuel) : i ∈ scanReadsGo data count i fuel := by
  obtain ⟨f, rfl⟩ : ∃ f, fuel = f + 1 := ⟨fuel - 1, by omega⟩
  simp only [scanReadsGo]
  exact List.mem_append.mpr
    (Or.inl (List.mem_append.mpr (Or.inl (markerReads_self data i))))

/-- Reads of later iterations are reads of the whole loop. -/
theorem scanReadsGo_tail (data : Nat → Nat) (count i fuel x : Nat)
    (h : x ∈ scanReadsGo data count (i+1) fuel) :
    x ∈ scanReadsGo data count i (fuel+1) := by
  simp only [scanReadsGo]
  exact List.mem_append.mpr (Or.inr h)

/-- The environment toggle passes exactly when the variable is present with
value `"1"`. -/
theorem toggleOn_iff (env : Option String) :
    toggleOn env = true ↔ env = some "1" := by
  cases env with
  | none => simp [toggleOn]
  | some s => simp [toggleOn]

/-! ## The claims -/

/-- Claim C1 — Transparency: for every fd, buffer and requested count, the
intercepted `write` returns exactly the value the resolved original
primitive returned, unchanged, whatever the toggle state and whether or not
scanning ran. -/
theorem C1_transparency (orig : OrigWrite) (env : Option String) (fd : Int)
    (buf : Nat → Nat) (count : Nat) :
    (interceptedWrite orig env fd buf count).ret = orig fd buf count := by
  unfold interceptedWrite
  split <;> rfl

/-- Claim C2 — the scanner does NOT stay inside the first `n` bytes for
every `n > 0`: with a single accepted byte (`n = 1`) the `size_t` loop
bound `count - 4` wraps around and the marker test reads offset 1, which is
already past the end of the buffer. -/
theorem C2_scan_overreads : 1 ∈ scanReads (fun _ => 65) 1 := by
  have hb : scanBound 1 = (2^64 - 4) + 1 := by decide
  unfold scanReads
  rw [hb]
  exact scanReadsGo_tail _ _ _ _ _ (scanReadsGo_head _ _ _ _ (by decide))

/-- Claim C4 — Toggle gating: the titles handed to the logger are exactly
those of a scan of the accepted bytes when the fd is stdout or stderr, the
requested count and the accepted count are positive, and the per-call
environment lookup yields exactly `"1"`; in every other case nothing is
scanned or logged (while forwarding still occurs, see the `ret` field). -/
theorem C4_toggle_gating (orig : OrigWrite) (env : Option String) (fd : Int)
    (buf : Nat → Nat) (count : Nat) :
    (interceptedWrite orig env fd buf count).titles =
      if (fd = 1 ∨ fd = 2) ∧ 0 < count ∧ 0 < orig fd buf count ∧
          env = some "1"
      then scanTitles buf (orig fd buf count).toNat
      else [] := by
  unfold interceptedWrite
  by_cases h : (fd = 1 ∨ fd = 2) ∧ 0 < count ∧ 0 < orig fd buf count ∧
      env = some "1"
  · have h2 : (fd = 1 ∨ fd = 2) ∧ 0 < count ∧ 0 < orig fd buf count ∧
        toggleOn env = true :=
      ⟨h.1, h.2.1, h.2.2.1, (toggleOn_iff env).mpr h.2.2.2⟩
    rw [if_pos h2, if_pos h]
  · have h2 : ¬ ((fd = 1 ∨ fd = 2) ∧ 0 < count ∧ 0 < orig fd buf count ∧
        toggleOn env = true) := by
      intro hc
      exact h ⟨hc.1, hc.2.1, hc.2.2.1, (toggleOn_iff env).mp hc.2.2.2⟩
    rw [if_neg h2, if_neg h]

/-- Claim C8 — Resolver failure is fatal: when `dlsym` yields nothing the
one-time initialisation terminates the process (modelled as `Except.error`),
a successful resolution stores the primitive, and the intercepted `write`
never returns any failure indication of its own — it always returns the
original primitive's result. -/
theorem C8_resolver_failure_fatal :
    init_original_write none = Except.error () ∧
    (∀ w : OrigWrite, init_original_write (some w) = Except.ok w) ∧
    (∀ (orig : OrigWrite) (env : Option String) (fd : Int) (buf : Nat → Nat)
        (count : Nat),
      (interceptedWrite orig env fd buf count).ret = orig fd buf count) := by
  refine ⟨rfl, fun w => rfl, fun orig env fd buf count => ?_⟩
  unfold interceptedWrite
  split <;> rfl

/-- Claim C10 — Bounded record line: a record whose formatted line
(timestamp, pid, cwd, title, separators, newline) is 1024 bytes or longer
is silently dropped, even when the title itself is valid and at most 200
bytes. -/
theorem C10_bounded_record_drop (ts : List Nat) (pid : Nat)
    (cwd title : List Nat)
    (_hlen : title.length ≤ 200) (_hok : ∀ b ∈ title, byteOk b)
    (hbig : 1024 ≤ (formatRecord ts pid cwd title).length) :
    logRecord ts pid cwd title = none := by
  unfold logRecord
  have hc : ¬ (0 < (formatRecord ts pid cwd title).length ∧
      (formatRecord ts pid cwd title).length < 1024) := by omega
  rw [if_neg hc]

set_option maxRecDepth 20000 in
/-- Witness for C10: a 1100-byte working directory makes the line overflow
the 1024-byte buffer, so the record is dropped despite its 1-byte title. -/
theorem C10_bounded_record_drop_witness :
    logRecord (List.replicate 19 48) 1 (List.replicate 1100 97) [104] = none :=
  C10_bounded_record_drop (List.replicate 19 48) 1 (List.replicate 1100 97)
    [104] (by decide) (by decide) (by decide)

/-- The single-sequence example buffer: `ESC ] 0 ; h e l l o BEL`. -/
def exC3buf : List Nat := [27, 93, 48, 59, 104, 101, 108, 108, 111, 7]

/-- Claim C3 — Single well-formed sequence: for the buffer
`ESC ] 0 ; "hello" BEL` with the toggle on, fd = stdout and the whole
buffer accepted by the original primitive, exactly one record is handed to
the logger and its title is `"hello"`; the caller still gets the original
return value. -/
theorem C3_single_sequence (orig : OrigWrite)
    (h : orig 1 (bufOf exC3buf) 10 = 10) :
    (interceptedWrite orig (some "1") 1 (bufOf exC3buf) 10).titles
        = [[104, 101, 108, 108, 111]] ∧
    (interceptedWrite orig (some "1") 1 (bufOf exC3buf) 10).ret = 10 := by
  unfold interceptedWrite
  rw [h]
  have hc : ((1:Int) = 1 ∨ (1:Int) = 2) ∧ 0 < 10 ∧ (0:Int) < 10 ∧
      toggleOn (some "1") = true := by decide
  rw [if_pos hc]
  exact ⟨by decide, rfl⟩

/-- Witness for C3: the original primitive accepting everything. -/
theorem C3_single_sequence_witness :
    (interceptedWrite (fun _ _ c => (c : Int)) (some "1") 1 (bufOf exC3buf)
        10).titles = [[104, 101, 108, 108, 111]] ∧
    (interceptedWrite (fun _ _ c => (c : Int)) (some "1") 1 (bufOf exC3buf)
        10).ret = 10 :=
  C3_single_sequence (fun _ _ c => (c : Int)) (by decide)

/-- Claim C5 — Truncation: a terminated candidate whose payload is longer
than 200 bytes and printable throughout is truncated, not rejected: the
yielded title is exactly the first 200 payload bytes. -/
theorem C5_truncation (data : Nat → Nat) (count i : Nat)
    (h1 : findEnd data count (i+4) < count)
    (h2 : i + 4 + 200 < findEnd data count (i+4))
    (h3 : ∀ k, k < findEnd data count (i+4) - (i+4) → byteOk (data (i+4+k))) :
    candidateTitle data count i
        = some ((List.range 200).map (fun k => data (i+4+k))) ∧
    ((List.range 200).map (fun k => data (i+4+k))).length = 200 := by
  have hmin : min (findEnd data count (i+4) - (i+4)) 200 = 200 := by omega
  unfold candidateTitle
  rw [if_pos ⟨h1, by omega⟩, hmin]
  have hall : ∀ b ∈ (List.range 200).map (fun k => data (i+4+k)), byteOk b := by
    intro b hb
    simp only [List.mem_map, List.mem_range] at hb
    obtain ⟨k, hk, rfl⟩ := hb
    exact h3 k (by omega)
  rw [if_pos ⟨hall, by norm_num⟩]
  exact ⟨rfl, by simp⟩

/-- The truncation example buffer: a marker, 300 printable bytes, BEL. -/
def exC5buf : List Nat := [27, 93, 48, 59] ++ List.replicate 300 97 ++ [7]

set_option maxRecDepth 20000 in
/-- Witness for C5: a 300-byte printable payload yields a 200-byte title
equal to the first 200 payload bytes. -/
theorem C5_truncation_witness :
    candidateTitle (bufOf exC5buf) 305 0
        = some ((List.range 200).map (fun k => bufOf exC5buf (0+4+k))) ∧
    ((List.range 200).map (fun k => bufOf exC5buf (0+4+k))).length = 200 :=
  C5_truncation (bufOf exC5buf) 305 0 (by decide) (by decide) (by decide)

/-- Claim C6 — Drop conditions: a candidate at marker offset `i` yields no
record when no terminator exists before the buffer ends, or when a
terminator sits immediately after the leading `;` (empty payload), or when
some retained (post-truncation) payload byte fails the printable test. -/
theorem C6_drop_conditions (data : Nat → Nat) (count i : Nat)
    (h : (∀ j, i + 4 ≤ j → j < count → ¬ termAt data count j)
       ∨ termAt data count (i+4)
       ∨ (∃ k, k < min (findEnd data count (i+4) - (i+4)) 200 ∧
            ¬ byteOk (data (i+4+k)))) :
    candidateTitle data count i = none := by
  rcases h with h | h | h
  · unfold candidateTitle
    by_cases hle : i + 4 ≤ count
    · rw [findEnd_noterm data count (i+4) hle h]
      rw [if_neg]
      omega
    · rw [findEnd_of_ge data count (i+4) (by omega)]
      rw [if_neg]
      omega
  · unfold candidateTitle
    by_cases hlt : i + 4 < count
    · rw [findEnd_stop data count (i+4) hlt h]
      rw [if_neg]
      omega
    · rw [findEnd_of_ge data count (i+4) (by omega)]
      rw [if_neg]
      omega
  · unfold candidateTitle
    by_cases hc : findEnd data count (i+4) < count ∧
        i+4 < findEnd data count (i+4)
    · rw [if_pos hc, if_neg]
      intro hcon
      obtain ⟨k, hk, hbad⟩ := h
      exact hbad (hcon.1 _
        (List.mem_map.mpr ⟨k, List.mem_range.mpr hk, rfl⟩))
    · rw [if_neg hc]

/-- Witness for C6: the control byte 0x01 inside the payload of
`ESC ] 0 ; h 0x01 i BEL` drops the whole candidate. -/
theorem C6_drop_conditions_witness :
    candidateTitle (bufOf [27, 93, 48, 59, 104, 1, 105, 7]) 8 0 = none :=
  C6_drop_conditions (bufOf [27, 93, 48, 59, 104, 1, 105, 7]) 8 0
    (Or.inr (Or.inr ⟨1, by decide, by decide⟩))

/-- Claim C9 — validation stops at the truncation point: when the payload
runs past 200 bytes, only the first 200 bytes are validated, so a record is
produced even though a payload byte after position 200 (here explicitly
required to be non-printable) precedes the terminator. -/
theorem C9_validation_stops_at_truncation (data : Nat → Nat) (count i : Nat)
    (h1 : findEnd data count (i+4) < count)
    (h2 : i + 4 + 200 < findEnd data count (i+4))
    (h3 : ∀ k, k < 200 → byteOk (data (i+4+k)))
    (_h4 : ¬ byteOk (data (i+4+200))) :
    candidateTitle data count i
        = some ((List.range 200).map (fun k => data (i+4+k))) := by
  have hmin : min (findEnd data count (i+4) - (i+4)) 200 = 200 := by omega
  unfold candidateTitle
  rw [if_pos ⟨h1, by omega⟩, hmin]
  have hall : ∀ b ∈ (List.range 200).map (fun k => data (i+4+k)), byteOk b := by
    intro b hb
    simp only [List.mem_map, List.mem_range] at hb
    obtain ⟨k, hk, rfl⟩ := hb
    exact h3 k hk
  rw [if_pos ⟨hall, by norm_num⟩]

/-- The buffer for the C9 witness: 200 printable bytes, then 0x01, then the
terminator. -/
def exC9buf : List Nat :=
  [27, 93, 48, 59] ++ List.replicate 200 97 ++ [1, 7]

set_option maxRecDepth 20000 in
/-- Witness for C9: the 0x01 at payload position 200 does not prevent the
record; the yielded title is the 200 validated bytes. -/
theorem C9_validation_stops_at_truncation_witness :
    candidateTitle (bufOf exC9buf) 206 0
        = some ((List.range 200).map (fun k => bufOf exC9buf (0+4+k))) :=
  C9_validation_stops_at_truncation (bufOf exC9buf) 206 0
    (by decide) (by decide) (by decide) (by decide)

/-- A buffer whose first candidate is yielded truncated: a marker, 200
printable bytes, then a second marker hidden past the truncation point,
a 1-byte payload and the shared BEL terminator. -/
def exC7buf : List Nat :=
  [27, 93, 48, 59] ++ List.replicate 200 97 ++ [27, 93, 48, 59, 98, 7]

set_option maxRecDepth 100000 in
/-- Counterexample to claim C7 as stated: the code's scan does not resume
after the consumed terminator but at the next byte offset, so the marker at
offset 204 — inside the consumed region (payload) of the first yielded
candidate — produces a second record, while the specification's
resume-after-terminator scan yields only one. -/
theorem C7_resumption_cex :
    scanTitles (bufOf exC7buf) 210
        = [List.replicate 200 97, [98]] ∧
    scanSkipTitles (bufOf exC7buf) 210 = [List.replicate 200 97] := by
  constructor <;> decide

/-- Claim C7 (amended) — when the yielded payload was not truncated (its
full length is at most 200 bytes, so every payload byte was validated
printable), no leading marker can begin anywhere in the consumed region
(marker, payload and terminator bytes), and the scan's continuation from
`i+1` produces exactly what continuing immediately after the consumed
terminator produces: no additional record arises from the consumed
region. -/
theorem C7_resumption_amended (data : Nat → Nat) (count i te ce fuel : Nat)
    (hm : markerAt data i)
    (hte : te = findEnd data count (i+4))
    (h1 : te < count) (h2 : i + 4 < te) (h3 : te - (i+4) ≤ 200)
    (hok : ∀ k, k < te - (i+4) → byteOk (data (i+4+k)))
    (hce : ce = if data te = 7 then te else te + 1)
    (hfuel : ce - i ≤ fuel) :
    (∀ j, i < j → j ≤ ce → ¬ markerAt data j) ∧
    scanGo data count (i+1) fuel = scanGo data count (ce+1) (fuel - (ce - i)) := by
  subst hte
  have hterm : termAt data count (findEnd data count (i+4)) :=
    findEnd_term data count (i+4) h1
  have hce2 : findEnd data count (i+4) ≤ ce ∧
      ce ≤ findEnd data count (i+4) + 1 := by
    by_cases hbel : data (findEnd data count (i+4)) = 7
    · rw [if_pos hbel] at hce
      omega
    · rw [if_neg hbel] at hce
      omega
  have hnomark : ∀ j, i < j → j ≤ ce → ¬ markerAt data j := by
    intro j hj1 hj2 hmj
    obtain ⟨hm0, hm1, hm2, hm3⟩ := hm
    obtain ⟨hj0, hjb, hjc, hjd⟩ := hmj
    by_cases hj3 : j < i + 4
    · have hcase : j = i+1 ∨ j = i+2 ∨ j = i+3 := by omega
      rcases hcase with rfl | rfl | rfl
      · rw [hm1] at hj0
        omega
      · rcases hm2 with hv | hv
        · rw [hv] at hj0
          omega
        · rw [hv] at hj0
          omega
      · rw [hm3] at hj0
        omega
    · by_cases hj4 : j < findEnd data count (i+4)
      · have hok2 := hok (j - (i+4)) (by omega)
        rw [show i + 4 + (j - (i+4)) = j from by omega] at hok2
        rw [hj0] at hok2
        exact hok2 (by decide)
      · by_cases hbel : data (findEnd data count (i+4)) = 7
        · rw [if_pos hbel] at hce
          have hj5 : j = findEnd data count (i+4) := by omega
          rw [hj5, hbel] at hj0
          omega
        · rw [if_neg hbel] at hce
          rcases hterm with h7 | ⟨_, hesc1, hesc2⟩
          · exact hbel h7
          · have hj5 : j = findEnd data count (i+4) ∨
                j = findEnd data count (i+4) + 1 := by omega
            rcases hj5 with hj5 | hj5
            · rw [hj5] at hjb
              rw [hesc2] at hjb
              omega
            · rw [hj5] at hj0
              rw [hesc2] at hj0
              omega
  refine ⟨hnomark, ?_⟩
  have hskip := scanGo_skip data count (ce - i) (i+1) fuel
    (fun j hja hjb => hnomark j (by omega) (by omega)) (by omega)
  rw [hskip]
  rw [show i + 1 + (ce - i) = ce + 1 from by omega]

/-- The buffer for the C7 witness: `ESC ] 2 ; h i BEL`, an untruncated
yielded candidate spanning offsets 0–6. -/
def exC7wbuf : List Nat := [27, 93, 50, 59, 104, 105, 7]

/-- Witness for the amended C7: for the yielded candidate of `exC7wbuf`
(marker at 0, terminator at 6), no marker lies in the consumed region and
the scan from offset 1 equals the scan resumed after the terminator. -/
theorem C7_resumption_amended_witness :
    (∀ j, 0 < j → j ≤ 6 → ¬ markerAt (bufOf exC7wbuf) j) ∧
    scanGo (bufOf exC7wbuf) 7 (0+1) 10 =
      scanGo (bufOf exC7wbuf) 7 (6+1) (10 - (6-0)) :=
  C7_resumption_amended (bufOf exC7wbuf) 7 0 6 6 10 (by decide) (by decide)
    (by decide) (by decide) (by decide) (by decide) (by decide) (by decide)

end TitleInterceptor
